import Mathlib

/-!
Verification of the render-request orchestration layer of the
`api-html-generate-image` service (an Express/Puppeteer HTML-to-image API).

The repository ships several variants of the same server:
* `src/index.js` (first document): a monolith with a single global browser
  page and one `lru-cache` instance (`max = 20`, `ttl = 1800000`);
* `src/index.js` (second document): a cluster variant with a `PagePool`
  class (`maxSize = 2`, acquire throws when saturated) and an `lru-cache`
  (`max = 50`, `ttl = 3600000`);
* `src/unnamed/part_000`: a cluster variant with an object-literal
  `pagePool` (initial size 5, acquire lazily creates an extra busy page
  when saturated), a two-tier cache (memory LRU `max = 100`,
  `ttl = 3600000`, plus `./cache` files), and a Bull queue;
* `src/unnamed/part_001` and `src/unnamed/part_002`: close relatives of
  the above.

The definitions below are shallow embeddings of those functions.  Machine
integers do not overflow in any modelled computation, so `Nat`/`Int` are
used directly.  The md5 digest from `crypto` is an external library; it is
modelled as an injective encoding, so a fingerprint is represented by the
exact string the source feeds into `createHash("md5").update(...)`,
namely `html + JSON.stringify(options)`.
-/

/-- A JSON value that can appear in a render-options object
(`width`/`height`/`quality` are numbers, `format` a string,
`fullPage` a boolean). -/
inductive JVal where
  | num (n : Int)
  | str (s : String)
  | bool (b : Bool)
deriving DecidableEq

/-- `JSON.stringify` of a single option value. -/
def JVal.stringify : JVal → String
  | .num n => toString n
  | .str s => "\"" ++ s ++ "\""
  | .bool b => if b then "true" else "false"

/-- `JSON.stringify` of the comma-separated members of an object, in
insertion order, exactly as JavaScript serializes object properties. -/
def stringifyMembers : List (String × JVal) → String
  | [] => ""
  | [(k, v)] => "\"" ++ k ++ "\":" ++ v.stringify
  | (k, v) :: rest => "\"" ++ k ++ "\":" ++ v.stringify ++ "," ++ stringifyMembers rest

/-- `JSON.stringify(options)` for an options object whose properties are
`opts` in insertion order. -/
def JSONstringify (opts : List (String × JVal)) : String :=
  "\x7b" ++ stringifyMembers opts ++ "\x7d"

/-- The cache key computed by every `generateImage` variant:
`crypto.createHash("md5").update(html + JSON.stringify(options))`.
The md5 digest is modelled as an injective encoding of its input, so the
fingerprint is represented by the hash input itself. -/
def fingerprint (html : String) (opts : List (String × JVal)) : String :=
  html ++ JSONstringify opts

/-- Modelled from the spec: the `lru-cache` library instances
(`new LRU({max, ttl})` in `src/index.js` and the cluster variants) are a
dependency whose source is not part of this repository.  Following the
spec (§4.2, §8): a bounded in-memory cache with least-recently-used
eviction against `maxItems` and a TTL hard expiry ceiling.  `entries`
holds `(key, value, insertedAt)` triples ordered most-recently-used
first. -/
structure LruCache where
  maxItems : Nat
  ttl : Nat
  entries : List (String × String × Nat)
deriving DecidableEq

/-- Remove every entry with key `k`. -/
def lruErase (k : String) : List (String × String × Nat) → List (String × String × Nat)
  | [] => []
  | e :: es => if e.1 = k then lruErase k es else e :: lruErase k es

/-- First entry with key `k`, if any. -/
def lruFind (k : String) : List (String × String × Nat) → Option (String × String × Nat)
  | [] => none
  | e :: es => if e.1 = k then some e else lruFind k es

/-- Modelled from the spec: `cache.set(k, v)` — insert at the
most-recently-used position, replacing any previous entry for `k`, and
evict from the least-recently-used end down to the `maxItems` bound. -/
def lruPut (k v : String) (now : Nat) (c : LruCache) : LruCache :=
  { c with entries := ((k, v, now) :: lruErase k c.entries).take c.maxItems }

/-- Modelled from the spec: `cache.get(k)` — a miss for absent keys; an
entry past its TTL deadline is stale, dropped, and reported as a miss;
a live hit is promoted to the most-recently-used position.  Returns the
looked-up value together with the updated cache. -/
def lruGet (k : String) (now : Nat) (c : LruCache) : Option String × LruCache :=
  match lruFind k c.entries with
  | none => (none, c)
  | some e =>
    if now < e.2.2 + c.ttl then
      (some e.2.1, { c with entries := e :: lruErase k c.entries })
    else
      (none, { c with entries := lruErase k c.entries })

/-- One client-visible cache operation, used to state persistence of an
entry across subsequent cache traffic. -/
inductive CacheOp where
  | put (k v : String) (now : Nat)
  | get (k : String) (now : Nat)
deriving DecidableEq

/-- Apply one cache operation. -/
def applyOp (c : LruCache) : CacheOp → LruCache
  | .put k v now => lruPut k v now c
  | .get k now => (lruGet k now c).2

/-- Apply a sequence of cache operations, oldest first. -/
def applyOps (c : LruCache) (ops : List CacheOp) : LruCache :=
  ops.foldl applyOp c

/-- Every entry for key `k` carries exactly the value `v` inserted at
time `t`. -/
def KPinned (k v : String) (t : Nat) (es : List (String × String × Nat)) : Prop :=
  ∀ e ∈ es, e.1 = k → e = (k, v, t)

/-! ## Resource pools

Two pool variants occur in the sources.  Pages are identified by numeric
ids standing for the JavaScript object identity of the Puppeteer page. -/

/-- One slot of the `src/unnamed/part_000` worker pool:
`this.pages.push({ page, inUse: false })`. -/
structure PageEntry where
  pageId : Nat
  inUse : Bool
deriving DecidableEq

/-- The `src/unnamed/part_000` object-literal `pagePool`: its page list
plus a counter supplying the identity of the next `browser.newPage()`. -/
structure WorkerPool where
  pages : List PageEntry
  nextId : Nat
deriving DecidableEq

/-- `pagePool.init(size = 5)` in `src/unnamed/part_000`: pre-create
`size` idle pages. -/
def wpInit (size : Nat) : WorkerPool :=
  { pages := (List.range size).map (fun i => { pageId := i, inUse := false }),
    nextId := size }

/-- Mark the first idle page busy, returning its id, or `none` when all
pages are in use (`this.pages.find(p => !p.inUse)`). -/
def wpMark : List PageEntry → Option (Nat × List PageEntry)
  | [] => none
  | e :: es =>
    if e.inUse then
      match wpMark es with
      | some (p, es2) => some (p, e :: es2)
      | none => none
    else
      some (e.pageId, { pageId := e.pageId, inUse := true } :: es)

/-- `pagePool.acquire()` in `src/unnamed/part_000`: return the first idle
page marked busy; when none is idle, create a fresh page and push it
already busy (`this.pages.push({ page, inUse: true })`). -/
def wpAcquire (s : WorkerPool) : Nat × WorkerPool :=
  match wpMark s.pages with
  | some (p, ps) => (p, { s with pages := ps })
  | none =>
    (s.nextId,
     { pages := s.pages ++ [{ pageId := s.nextId, inUse := true }],
       nextId := s.nextId + 1 })

/-- Clear `inUse` on the first entry whose page is `p`
(`this.pages.find(p => p.page === page)`). -/
def wpFree (p : Nat) : List PageEntry → List PageEntry
  | [] => []
  | e :: es =>
    if e.pageId = p then { pageId := e.pageId, inUse := false } :: es
    else e :: wpFree p es

/-- `pagePool.release(page)` in `src/unnamed/part_000`. -/
def wpRelease (s : WorkerPool) (p : Nat) : WorkerPool :=
  { s with pages := wpFree p s.pages }

/-- Busy-page count of the worker pool. -/
def wpBusyCount (s : WorkerPool) : Nat :=
  (s.pages.filter (fun e => e.inUse)).length

/-- Iterate `wpAcquire`, discarding the returned page ids. -/
def wpAcquireN : Nat → WorkerPool → WorkerPool
  | 0, s => s
  | n + 1, s => wpAcquireN n (wpAcquire s).2

/-- One slot of the cluster `PagePool` in `src/index.js`:
`{ page, inUse: false, lastUsed: Date.now() }`. -/
structure CPage where
  pageId : Nat
  inUse : Bool
  lastUsed : Nat
deriving DecidableEq

/-- The cluster `PagePool` class of `src/index.js` (`maxSize = 2` at the
construction site). -/
structure ClusterPool where
  pages : List CPage
  maxSize : Nat
deriving DecidableEq

/-- `PagePool.initialize(browser)`: pre-create `maxSize` idle pages. -/
def cpInit (m : Nat) : ClusterPool :=
  { pages := (List.range m).map (fun i => { pageId := i, inUse := false, lastUsed := 0 }),
    maxSize := m }

/-- Mark the first idle page busy and stamp `lastUsed`, or `none` when
every page is in use. -/
def cpMark (now : Nat) : List CPage → Option (Nat × List CPage)
  | [] => none
  | e :: es =>
    if e.inUse then
      match cpMark now es with
      | some (p, es2) => some (p, e :: es2)
      | none => none
    else
      some (e.pageId, { pageId := e.pageId, inUse := true, lastUsed := now } :: es)

/-- `PagePool.acquire()` in `src/index.js`: first idle page, or
`throw new Error('No pages available in pool')` when saturated. -/
def cpAcquire (now : Nat) (s : ClusterPool) : Except String (Nat × ClusterPool) :=
  match cpMark now s.pages with
  | some (p, ps) => .ok (p, { s with pages := ps })
  | none => .error "No pages available in pool"

/-- Clear `inUse` and stamp `lastUsed` on the first entry for page `p`. -/
def cpFree (now p : Nat) : List CPage → List CPage
  | [] => []
  | e :: es =>
    if e.pageId = p then { pageId := e.pageId, inUse := false, lastUsed := now } :: es
    else e :: cpFree now p es

/-- `PagePool.release(page)` in `src/index.js`. -/
def cpRelease (now p : Nat) (s : ClusterPool) : ClusterPool :=
  { s with pages := cpFree now p s.pages }

/-- Busy-page count of the cluster pool. -/
def cpBusyCount (s : ClusterPool) : Nat :=
  (s.pages.filter (fun e => e.inUse)).length

/-- Page `p` is currently held (some pool entry for it is marked
`inUse`). -/
def cpBusy (s : ClusterPool) (p : Nat) : Prop :=
  ∃ e ∈ s.pages, e.pageId = p ∧ e.inUse = true

/-- One transition of the cluster pool: a successful `acquire` or any
`release`. -/
inductive CpStep : ClusterPool → ClusterPool → Prop where
  | acquire (now p : Nat) (s s2 : ClusterPool) :
      cpAcquire now s = Except.ok (p, s2) → CpStep s s2
  | release (now p : Nat) (s : ClusterPool) : CpStep s (cpRelease now p s)

/-- States of the cluster pool reachable from a freshly initialized pool
of `m` pages by acquire/release traffic. -/
def CpReachable (m : Nat) (s : ClusterPool) : Prop :=
  Relation.ReflTransGen CpStep (cpInit m) s

/-! ## Render execution (`generateImage` variants) -/

/-- Decidable equality for render outcomes (`Except` carries both the
thrown error message and the produced bytes). -/
instance {α β : Type} [DecidableEq α] [DecidableEq β] : DecidableEq (Except α β) := fun a b =>
  match a, b with
  | .ok x, .ok y =>
    if h : x = y then .isTrue (by rw [h]) else .isFalse (fun hc => by cases hc; exact h rfl)
  | .ok _, .error _ => .isFalse (fun hc => by cases hc)
  | .error _, .ok _ => .isFalse (fun hc => by cases hc)
  | .error x, .error y =>
    if h : x = y then .isTrue (by rw [h]) else .isFalse (fun hc => by cases hc; exact h rfl)

/-- Pool traffic emitted by one `generateImage` call. -/
inductive PoolEvent where
  | acquired (p : Nat)
  | released (p : Nat)
deriving DecidableEq

/-- Result of the cluster `generateImage` of `src/index.js`
(lines 462-494): caller-visible outcome plus the cache/pool state it
leaves behind and the pool events it performed. -/
structure GenOut where
  result : Except String String
  cache : LruCache
  pool : ClusterPool
  events : List PoolEvent
deriving DecidableEq

/-- The cluster `generateImage(html, options)` of `src/index.js`:
hash, memory-cache probe, `pagePool.acquire()`, render (whose outcome —
screenshot bytes, thrown error, or timeout rejection — is the `render`
parameter), `memoryCache.set` on success, and `pagePool.release` in the
`finally` block on every exit path. -/
def generateImageC (render : Except String String) (now : Nat)
    (cache : LruCache) (pool : ClusterPool)
    (html : String) (opts : List (String × JVal)) : GenOut :=
  let h := fingerprint html opts
  match lruGet h now cache with
  | (some v, c1) => { result := .ok v, cache := c1, pool := pool, events := [] }
  | (none, c1) =>
    match cpAcquire now pool with
    | .error e => { result := .error e, cache := c1, pool := pool, events := [] }
    | .ok (p, pool1) =>
      match render with
      | .ok bytes =>
        { result := .ok bytes, cache := lruPut h bytes now c1,
          pool := cpRelease now p pool1,
          events := [.acquired p, .released p] }
      | .error e =>
        { result := .error e, cache := c1, pool := cpRelease now p pool1,
          events := [.acquired p, .released p] }

/-- Look up a Tier-2 (file cache) entry by fingerprint
(`fs.existsSync(cachedFile)` + `fs.readFileSync`). -/
def diskFind (k : String) : List (String × String) → Option String
  | [] => none
  | e :: es => if e.1 = k then some e.2 else diskFind k es

/-- Result of the two-tier `generateImage` of `src/unnamed/part_000`
(lines 120-159). -/
structure WGenOut where
  result : Except String String
  mem : LruCache
  disk : List (String × String)
  pool : WorkerPool
  events : List PoolEvent
deriving DecidableEq

/-- The `generateImage(html, options)` of `src/unnamed/part_000`: hash,
memory-cache probe, file-cache probe (a hit is promoted into the memory
cache), `pagePool.acquire()`, render under `Promise.race` with the
timeout (outcome is the `render` parameter), then
`fs.writeFileSync(cachedFile, screenshot)` — which throws when the write
fails (`writeOk = false`), skipping the `memoryCache.set` that follows
it — and `pagePool.release(page)` in the `finally` block. -/
def generateImageW (render : Except String String) (writeOk : Bool) (now : Nat)
    (mem : LruCache) (disk : List (String × String)) (pool : WorkerPool)
    (html : String) (opts : List (String × JVal)) : WGenOut :=
  let h := fingerprint html opts
  match lruGet h now mem with
  | (some v, m1) => { result := .ok v, mem := m1, disk := disk, pool := pool, events := [] }
  | (none, m1) =>
    match diskFind h disk with
    | some img =>
      { result := .ok img, mem := lruPut h img now m1, disk := disk, pool := pool,
        events := [] }
    | none =>
      match wpAcquire pool with
      | (p, pool1) =>
        match render with
        | .error e =>
          { result := .error e, mem := m1, disk := disk,
            pool := wpRelease pool1 p,
            events := [.acquired p, .released p] }
        | .ok shot =>
          if writeOk then
            { result := .ok shot, mem := lruPut h shot now m1,
              disk := (h, shot) :: disk, pool := wpRelease pool1 p,
              events := [.acquired p, .released p] }
          else
            { result := .error "cache write failed", mem := m1, disk := disk,
              pool := wpRelease pool1 p,
              events := [.acquired p, .released p] }

/-! ## HTTP handlers -/

/-- Responses a route handler can produce. -/
inductive HttpResp where
  | badRequest (error : String)
  | okImage (contentType : String) (body : String)
  | serverError (error : String)
deriving DecidableEq

/-- JavaScript `String.prototype.toLowerCase` for one character:
ASCII upper-case letters are shifted to lower case (the format strings
validated here are ASCII). -/
def jsLowerChar (ch : Char) : Char :=
  if 65 ≤ ch.toNat ∧ ch.toNat ≤ 90 then Char.ofNat (ch.toNat + 32) else ch

/-- JavaScript `s.toLowerCase()`. -/
def jsToLowerCase (s : String) : String :=
  String.mk (s.data.map jsLowerChar)

/-- JavaScript `parseInt(x) || d`: `d` when the field is absent or does
not parse (`NaN`), and also when it parses to the falsy value `0`. -/
def jsIntOr (d : Int) : Option Int → Int
  | none => d
  | some n => if n = 0 then d else n

/-- JavaScript `x || d` for an optional string: `d` when absent and when
the string is empty (falsy). -/
def jsStrOr (d : String) : Option String → String
  | none => d
  | some s => if s = "" then d else s

/-- Body of a `POST /image` request to the monolith of `src/index.js`,
with numeric fields already put through `parseInt` (`none` = absent or
`NaN`). -/
structure PostBody where
  html : Option String
  width : Option Int
  height : Option Int
  quality : Option Int
  format : Option String
deriving DecidableEq

/-- The monolith `generateImage(html, options)` of `src/index.js`
(lines 66-108): cache probe, render on the single global page (outcome
is the `render` parameter), `cache.set` on success.  The last component
counts renders executed against the page. -/
def generateImageMono (render : Except String String) (now : Nat)
    (cache : LruCache) (html : String) (opts : List (String × JVal)) :
    Except String String × LruCache × Nat :=
  let h := fingerprint html opts
  match lruGet h now cache with
  | (some v, c1) => (.ok v, c1, 0)
  | (none, c1) =>
    match render with
    | .ok out => (.ok out, lruPut h out now c1, 1)
    | .error e => (.error e, c1, 1)

/-- The monolith `app.post("/image")` handler of `src/index.js`
(lines 112-151): require `html`; build options with
`parseInt(...) || default`; validate dimensions, then quality, then
format (lower-cased); on success call `generateImage` and answer with
the format's content type. -/
def postImage (render : Except String String) (now : Nat) (cache : LruCache)
    (body : PostBody) : HttpResp × LruCache × Nat :=
  match body.html with
  | none => (.badRequest "HTML required", cache, 0)
  | some html =>
    let width := jsIntOr 800 body.width
    let height := jsIntOr 600 body.height
    let quality := jsIntOr 80 body.quality
    let format := jsStrOr "jpeg" body.format
    if width < 1 ∨ 4000 < width ∨ height < 1 ∨ 4000 < height then
      (.badRequest "Invalid dimensions. Width and height must be between 1 and 4000 pixels",
       cache, 0)
    else if quality < 1 ∨ 100 < quality then
      (.badRequest "Invalid quality. Must be between 1 and 100", cache, 0)
    else if ¬ (jsToLowerCase format = "jpeg" ∨ jsToLowerCase format = "png" ∨
                jsToLowerCase format = "pdf") then
      (.badRequest "Invalid format. Must be jpeg, png, or pdf", cache, 0)
    else
      match generateImageMono render now cache html
          [("width", .num width), ("height", .num height),
           ("quality", .num quality), ("format", .str format)] with
      | (.ok bytes, c2, n) =>
        (.okImage (if jsToLowerCase format = "pdf" then "application/pdf"
                   else "image/" ++ format) bytes, c2, n)
      | (.error _, c2, n) => (.serverError "Generation failed", c2, n)

/-- `decodeURIComponent` as applied to `req.query.html` in
`src/unnamed/part_000`: an absent query parameter is the JavaScript
value `undefined`, which `decodeURIComponent` coerces to the string
`"undefined"`; for present parameters the percent-decoding itself is
abstracted as the identity (no claim depends on it). -/
def decodeURIComponentJs : Option String → String
  | none => "undefined"
  | some s => s

/-- Result of the `GET /image` handler of `src/unnamed/part_000`:
the HTTP response, the html text submitted to the render queue (if
any), and the worker state left behind. -/
structure GetOut where
  resp : HttpResp
  submitted : Option String
  mem : LruCache
  disk : List (String × String)
  pool : WorkerPool
deriving DecidableEq

/-- The `app.get("/image")` handler of `src/unnamed/part_000`
(lines 176-201): `decodeURIComponent(req.query.html)` first, then the
`if (!html)` presence check, then a queue job running `generateImage`;
a successful job answers 200 `image/png`, a failed one 500. -/
def getImage (render : Except String String) (writeOk : Bool) (now : Nat)
    (mem : LruCache) (disk : List (String × String)) (pool : WorkerPool)
    (queryHtml : Option String) : GetOut :=
  let html := decodeURIComponentJs queryHtml
  if html = "" then
    { resp := .badRequest "HTML content is required", submitted := none,
      mem := mem, disk := disk, pool := pool }
  else
    let out := generateImageW render writeOk now mem disk pool html []
    match out.result with
    | .ok img =>
      { resp := .okImage "image/png" img, submitted := some html,
        mem := out.mem, disk := out.disk, pool := out.pool }
    | .error e =>
      { resp := .serverError e, submitted := some html,
        mem := out.mem, disk := out.disk, pool := out.pool }

/-! ## Two identical concurrent submissions (cluster `generateImage`)

JavaScript is single-threaded: interleaving happens only at the `await`
points of `generateImage`.  A job therefore advances through four atomic
phases — (1) function entry up to the synchronous `memoryCache.get`,
(2) `await pagePool.acquire()`, (3) the awaited render
(`setViewport`/`setContent`/`screenshot`), (4) the synchronous
`memoryCache.set` + `return` with the awaited `finally` release. -/

/-- Program counter of one in-flight `generateImage` call. -/
inductive JPc where
  | checkCache
  | doAcquire
  | doRender (page : Nat)
  | doStore (page : Nat) (bytes : String)
  | jobDone (out : Except String String)
deriving DecidableEq

/-- Shared worker state plus the two jobs' program counters; `renders`
counts screenshot executions. -/
structure TwoJobs where
  cache : LruCache
  pool : ClusterPool
  renders : Nat
  jobA : JPc
  jobB : JPc

/-- Advance one job by one atomic phase of the cluster `generateImage`
(render engine modelled as the deterministic function `render` the spec
posits for the external engine). -/
def jobStep (render : String → List (String × JVal) → String)
    (html : String) (opts : List (String × JVal)) (now : Nat)
    (cache : LruCache) (pool : ClusterPool) (renders : Nat) (pc : JPc) :
    LruCache × ClusterPool × Nat × JPc :=
  match pc with
  | .checkCache =>
    match lruGet (fingerprint html opts) now cache with
    | (some v, c1) => (c1, pool, renders, .jobDone (.ok v))
    | (none, c1) => (c1, pool, renders, .doAcquire)
  | .doAcquire =>
    match cpAcquire now pool with
    | .error e => (cache, pool, renders, .jobDone (.error e))
    | .ok (p, pool1) => (cache, pool1, renders, .doRender p)
  | .doRender p => (cache, pool, renders + 1, .doStore p (render html opts))
  | .doStore p bytes =>
    (lruPut (fingerprint html opts) bytes now cache, cpRelease now p pool,
     renders, .jobDone (.ok bytes))
  | .jobDone o => (cache, pool, renders, .jobDone o)

/-- Advance job A (`true`) or job B (`false`) by one phase. -/
def sysStep (render : String → List (String × JVal) → String)
    (html : String) (opts : List (String × JVal)) (now : Nat)
    (s : TwoJobs) (pick : Bool) : TwoJobs :=
  if pick then
    match jobStep render html opts now s.cache s.pool s.renders s.jobA with
    | (c, pl, r, pc) => { cache := c, pool := pl, renders := r, jobA := pc, jobB := s.jobB }
  else
    match jobStep render html opts now s.cache s.pool s.renders s.jobB with
    | (c, pl, r, pc) => { cache := c, pool := pl, renders := r, jobA := s.jobA, jobB := pc }

/-- Run a schedule (list of picks, oldest first). -/
def sysRun (render : String → List (String × JVal) → String)
    (html : String) (opts : List (String × JVal)) (now : Nat)
    (sched : List Bool) (s : TwoJobs) : TwoJobs :=
  sched.foldl (sysStep render html opts now) s

/-- The request of end-to-end scenario A. -/
def scenHtml : String := "<p>hi</p>"

/-- Scenario A options as the POST body serializes them. -/
def scenOpts : List (String × JVal) :=
  [("width", .num 800), ("height", .num 600), ("format", .str "jpeg")]

/-- Fingerprint of the scenario A request. -/
def scenFp : String := fingerprint scenHtml scenOpts

/-- Fresh cluster worker: empty `lru-cache` (`max = 50`,
`ttl = 3600000`), freshly initialized two-page pool, no renders, both
submissions at function entry. -/
def scenInit : TwoJobs :=
  { cache := { maxItems := 50, ttl := 3600000, entries := [] },
    pool := cpInit 2, renders := 0, jobA := .checkCache, jobB := .checkCache }

/-- The fully concurrent schedule: the second submission enters
`generateImage` before the first completes (its cache probe precedes the
first job's `memoryCache.set`). -/
def scenSched : List Bool := [true, false, true, false, true, false, true, false]

/-- Run scenario A under the fully concurrent schedule. -/
def scenRun (render : String → List (String × JVal) → String) : TwoJobs :=
  sysRun render scenHtml scenOpts 0 scenSched scenInit

/-! ## Two overlapping jobs in the single-page monolith

`src/index.js` lines 45-63: `initializePage` lazily creates one global
`page` and every call returns that same object; `generateImage`
(lines 66-108) has no pool and no busy flag. -/

/-- The identity of the single global `page` that `initializePage`
always returns. -/
def initializePageId : Nat := 0

/-- Program counter of one monolith render job: not yet started, holding
the page handle mid-render, or finished. -/
inductive SJob where
  | start
  | rendering (handle : Nat)
  | finished
deriving DecidableEq

/-- One phase of a monolith render job: entering `generateImage` grabs
the handle returned by `initializePage`; a rendering job completes. -/
def sStep : SJob → SJob
  | .start => .rendering initializePageId
  | .rendering _ => .finished
  | .finished => .finished

/-- Advance job A (`true`) or job B (`false`) of the monolith by one
phase. -/
def sPairStep (s : SJob × SJob) (pick : Bool) : SJob × SJob :=
  if pick then (sStep s.1, s.2) else (s.1, sStep s.2)

/-- Run a monolith schedule. -/
def sRun (sched : List Bool) (s : SJob × SJob) : SJob × SJob :=
  sched.foldl sPairStep s

/-! ## Demonstration states used by witnesses -/

/-- The cluster pool after one acquire from a fresh two-page pool:
page 0 busy, page 1 idle. -/
def cpDemo : ClusterPool :=
  { pages := [{ pageId := 0, inUse := true, lastUsed := 0 },
              { pageId := 1, inUse := false, lastUsed := 0 }],
    maxSize := 2 }

/-- The cluster pool after a second acquire: both pages busy. -/
def cpDemoAfter : ClusterPool :=
  { pages := [{ pageId := 0, inUse := true, lastUsed := 0 },
              { pageId := 1, inUse := true, lastUsed := 0 }],
    maxSize := 2 }

/-- An empty memory cache with the `src/unnamed/part_000` configuration
(`MAX_MEMORY_CACHE = 100`, `ttl` one hour). -/
def memCache000 : LruCache :=
  { maxItems := 100, ttl := 3600000, entries := [] }

/-- An empty cache with the monolith configuration
(`CACHE_MAX_ITEMS = 20`, `CACHE_TTL = 1800000`). -/
def cacheMono : LruCache :=
  { maxItems := 20, ttl := 1800000, entries := [] }

/-! ## Helper lemmas about the cache model -/

theorem lruFind_some {k : String} {es : List (String × String × Nat)}
    {e : String × String × Nat} (h : lruFind k es = some e) : e ∈ es ∧ e.1 = k := by
  induction es with
  | nil => exact absurd h (by simp [lruFind])
  | cons a as ih =>
    rw [lruFind] at h
    by_cases ha : a.1 = k
    · rw [if_pos ha] at h
      injection h with h2
      subst h2
      exact ⟨List.mem_cons_self _ _, ha⟩
    · rw [if_neg ha] at h
      obtain ⟨hm, hk⟩ := ih h
      exact ⟨List.mem_cons_of_mem _ hm, hk⟩

theorem mem_lruErase {k : String} {es : List (String × String × Nat)}
    {e : String × String × Nat} (h : e ∈ lruErase k es) : e ∈ es := by
  induction es with
  | nil => simp [lruErase] at h
  | cons a as ih =>
    rw [lruErase] at h
    by_cases ha : a.1 = k
    · rw [if_pos ha] at h
      exact List.mem_cons_of_mem _ (ih h)
    · rw [if_neg ha] at h
      rcases List.mem_cons.mp h with h1 | h2
      · exact h1 ▸ List.mem_cons_self _ _
      · exact List.mem_cons_of_mem _ (ih h2)

theorem lruErase_key_ne {k : String} {es : List (String × String × Nat)}
    {e : String × String × Nat} (h : e ∈ lruErase k es) : e.1 ≠ k := by
  induction es with
  | nil => simp [lruErase] at h
  | cons a as ih =>
    rw [lruErase] at h
    by_cases ha : a.1 = k
    · rw [if_pos ha] at h
      exact ih h
    · rw [if_neg ha] at h
      rcases List.mem_cons.mp h with h1 | h2
      · rw [h1]; exact ha
      · exact ih h2

theorem lruErase_length_le (k : String) (es : List (String × String × Nat)) :
    (lruErase k es).length ≤ es.length := by
  induction es with
  | nil => simp [lruErase]
  | cons a as ih =>
    rw [lruErase]
    by_cases ha : a.1 = k
    · rw [if_pos ha]
      exact Nat.le_succ_of_le ih
    · rw [if_neg ha]
      simpa using ih

theorem lruFind_some_erase_lt {k : String} {es : List (String × String × Nat)}
    {e : String × String × Nat} (h : lruFind k es = some e) :
    (lruErase k es).length < es.length := by
  induction es with
  | nil => exact absurd h (by simp [lruFind])
  | cons a as ih =>
    rw [lruFind] at h
    rw [lruErase]
    by_cases ha : a.1 = k
    · rw [if_pos ha]
      exact Nat.lt_succ_of_le (lruErase_length_le k as)
    · rw [if_neg ha] at h
      rw [if_neg ha]
      simpa using Nat.succ_lt_succ (ih h)

theorem lruFind_lruErase_self (k : String) (es : List (String × String × Nat)) :
    lruFind k (lruErase k es) = none := by
  induction es with
  | nil => simp [lruErase, lruFind]
  | cons a as ih =>
    rw [lruErase]
    by_cases ha : a.1 = k
    · rw [if_pos ha]; exact ih
    · rw [if_neg ha, lruFind, if_neg ha]; exact ih

theorem lruGet_none_find_none {k : String} {t : Nat} {c : LruCache}
    (h : (lruGet k t c).1 = none) :
    lruFind k ((lruGet k t c).2).entries = none := by
  cases hf : lruFind k c.entries with
  | none =>
    simp only [lruGet, hf]
  | some e =>
    simp only [lruGet, hf] at h ⊢
    by_cases ht : t < e.2.2 + c.ttl
    · rw [if_pos ht] at h
      exact absurd h (by simp)
    · rw [if_neg ht]
      exact lruFind_lruErase_self k c.entries

theorem kPinned_lruPut_self (k v : String) (t : Nat) (c : LruCache) :
    KPinned k v t (lruPut k v t c).entries := by
  intro e he hek
  have he2 := List.mem_of_mem_take he
  rcases List.mem_cons.mp he2 with h1 | h2
  · exact h1
  · exact absurd hek (lruErase_key_ne h2)

theorem kPinned_lruPut {k v : String} {t : Nat} {c : LruCache}
    (k2 v2 : String) (t2 : Nat) (hne : k2 ≠ k) (hp : KPinned k v t c.entries) :
    KPinned k v t (lruPut k2 v2 t2 c).entries := by
  intro e he hek
  have he2 := List.mem_of_mem_take he
  rcases List.mem_cons.mp he2 with h1 | h2
  · rw [h1] at hek
    exact absurd hek hne
  · exact hp e (mem_lruErase h2) hek

theorem kPinned_lruGet {k v : String} {t : Nat} {c : LruCache}
    (k2 : String) (t2 : Nat) (hp : KPinned k v t c.entries) :
    KPinned k v t ((lruGet k2 t2 c).2).entries := by
  cases hf : lruFind k2 c.entries with
  | none =>
    simp only [lruGet, hf]
    exact hp
  | some e =>
    simp only [lruGet, hf]
    by_cases ht : t2 < e.2.2 + c.ttl
    · rw [if_pos ht]
      intro e2 he2 hek
      rcases List.mem_cons.mp he2 with h1 | h2
      · exact hp e2 (h1 ▸ (lruFind_some hf).1) hek
      · exact hp e2 (mem_lruErase h2) hek
    · rw [if_neg ht]
      intro e2 he2 hek
      exact hp e2 (mem_lruErase he2) hek

theorem lruPut_length_le (k v : String) (t : Nat) (c : LruCache) :
    (lruPut k v t c).entries.length ≤ c.maxItems :=
  List.length_take_le _ _

theorem lruGet_snd_length_le {k : String} {t : Nat} {c : LruCache} {n : Nat}
    (h : c.entries.length ≤ n) : ((lruGet k t c).2).entries.length ≤ n := by
  cases hf : lruFind k c.entries with
  | none =>
    simp only [lruGet, hf]
    exact h
  | some e =>
    simp only [lruGet, hf]
    by_cases ht : t < e.2.2 + c.ttl
    · rw [if_pos ht]
      have := lruFind_some_erase_lt hf
      simp only [List.length_cons]
      omega
    · rw [if_neg ht]
      exact le_trans (lruErase_length_le k c.entries) h

theorem lruGet_snd_ttl (k : String) (t : Nat) (c : LruCache) :
    ((lruGet k t c).2).ttl = c.ttl := by
  cases hf : lruFind k c.entries with
  | none => simp only [lruGet, hf]
  | some e =>
    simp only [lruGet, hf]
    by_cases ht : t < e.2.2 + c.ttl
    · rw [if_pos ht]
    · rw [if_neg ht]

theorem lruGet_snd_maxItems (k : String) (t : Nat) (c : LruCache) :
    ((lruGet k t c).2).maxItems = c.maxItems := by
  cases hf : lruFind k c.entries with
  | none => simp only [lruGet, hf]
  | some e =>
    simp only [lruGet, hf]
    by_cases ht : t < e.2.2 + c.ttl
    · rw [if_pos ht]
    · rw [if_neg ht]

theorem applyOp_ttl (c : LruCache) (op : CacheOp) : (applyOp c op).ttl = c.ttl := by
  cases op with
  | put k v n => rfl
  | get k n => exact lruGet_snd_ttl k n c

theorem applyOp_maxItems (c : LruCache) (op : CacheOp) :
    (applyOp c op).maxItems = c.maxItems := by
  cases op with
  | put k v n => rfl
  | get k n => exact lruGet_snd_maxItems k n c

theorem applyOps_ttl (c : LruCache) (ops : List CacheOp) :
    (applyOps c ops).ttl = c.ttl := by
  induction ops generalizing c with
  | nil => rfl
  | cons op rest ih =>
    show (applyOps (applyOp c op) rest).ttl = c.ttl
    rw [ih (applyOp c op), applyOp_ttl]

theorem applyOps_maxItems (c : LruCache) (ops : List CacheOp) :
    (applyOps c ops).maxItems = c.maxItems := by
  induction ops generalizing c with
  | nil => rfl
  | cons op rest ih =>
    show (applyOps (applyOp c op) rest).maxItems = c.maxItems
    rw [ih (applyOp c op), applyOp_maxItems]

theorem applyOps_pinned {k v : String} {t : Nat} {ops : List CacheOp} {c : LruCache}
    (hops : ∀ op ∈ ops, ∀ v2 t2, op ≠ CacheOp.put k v2 t2)
    (hp : KPinned k v t c.entries) : KPinned k v t (applyOps c ops).entries := by
  induction ops generalizing c with
  | nil => exact hp
  | cons op rest ih =>
    have hrest : ∀ op2 ∈ rest, ∀ v2 t2, op2 ≠ CacheOp.put k v2 t2 :=
      fun op2 hm => hops op2 (List.mem_cons_of_mem _ hm)
    refine ih hrest ?_
    cases op with
    | put k2 v2 t2 =>
      have hne : k2 ≠ k := by
        intro he
        exact hops _ (List.mem_cons_self _ _) v2 t2 (by rw [he])
      exact kPinned_lruPut k2 v2 t2 hne hp
    | get k2 t2 => exact kPinned_lruGet k2 t2 hp

theorem applyOps_length_le {ops : List CacheOp} {c : LruCache}
    (h : c.entries.length ≤ c.maxItems) :
    (applyOps c ops).entries.length ≤ c.maxItems := by
  induction ops generalizing c with
  | nil => exact h
  | cons op rest ih =>
    show (applyOps (applyOp c op) rest).entries.length ≤ c.maxItems
    rw [← applyOp_maxItems c op]
    refine ih ?_
    cases op with
    | put k2 v2 t2 =>
      show (lruPut k2 v2 t2 c).entries.length ≤ (lruPut k2 v2 t2 c).maxItems
      exact lruPut_length_le k2 v2 t2 c
    | get k2 t2 =>
      show ((lruGet k2 t2 c).2).entries.length ≤ ((lruGet k2 t2 c).2).maxItems
      rw [lruGet_snd_maxItems]
      exact lruGet_snd_length_le h

/-! ## Helper lemmas about the pools -/

theorem cpMark_length {now : Nat} {es es2 : List CPage} {p : Nat}
    (h : cpMark now es = some (p, es2)) : es2.length = es.length := by
  induction es generalizing es2 with
  | nil => exact absurd h (by simp [cpMark])
  | cons a as ih =>
    rw [cpMark] at h
    by_cases ha : a.inUse
    · rw [if_pos ha] at h
      cases hm : cpMark now as with
      | none => rw [hm] at h; exact absurd h (by simp)
      | some pr =>
        obtain ⟨q, bs⟩ := pr
        rw [hm] at h
        injection h with h2
        rw [Prod.mk.injEq] at h2
        obtain ⟨hq, hes⟩ := h2
        subst hq
        rw [← hes]
        simpa using ih hm
    · rw [if_neg ha] at h
      injection h with h2
      rw [Prod.mk.injEq] at h2
      obtain ⟨hq, hes⟩ := h2
      rw [← hes]
      simp

theorem cpMark_ids {now : Nat} {es es2 : List CPage} {p : Nat}
    (h : cpMark now es = some (p, es2)) :
    es2.map (fun e => e.pageId) = es.map (fun e => e.pageId) := by
  induction es generalizing es2 with
  | nil => exact absurd h (by simp [cpMark])
  | cons a as ih =>
    rw [cpMark] at h
    by_cases ha : a.inUse
    · rw [if_pos ha] at h
      cases hm : cpMark now as with
      | none => rw [hm] at h; exact absurd h (by simp)
      | some pr =>
        obtain ⟨q, bs⟩ := pr
        rw [hm] at h
        injection h with h2
        rw [Prod.mk.injEq] at h2
        obtain ⟨hq, hes⟩ := h2
        subst hq
        rw [← hes]
        simp only [List.map_cons]
        rw [ih hm]
    · rw [if_neg ha] at h
      injection h with h2
      rw [Prod.mk.injEq] at h2
      obtain ⟨hq, hes⟩ := h2
      rw [← hes]
      simp

theorem cpMark_some_free {now : Nat} {es es2 : List CPage} {p : Nat}
    (h : cpMark now es = some (p, es2)) :
    ∃ e ∈ es, e.pageId = p ∧ e.inUse = false := by
  induction es generalizing es2 with
  | nil => exact absurd h (by simp [cpMark])
  | cons a as ih =>
    rw [cpMark] at h
    by_cases ha : a.inUse
    · rw [if_pos ha] at h
      cases hm : cpMark now as with
      | none => rw [hm] at h; exact absurd h (by simp)
      | some pr =>
        obtain ⟨q, bs⟩ := pr
        rw [hm] at h
        injection h with h2
        rw [Prod.mk.injEq] at h2
        obtain ⟨hq, hes⟩ := h2
        subst hq
        obtain ⟨e, hme, hid, hu⟩ := ih hm
        exact ⟨e, List.mem_cons_of_mem _ hme, hid, hu⟩
    · rw [if_neg ha] at h
      injection h with h2
      rw [Prod.mk.injEq] at h2
      obtain ⟨hq, hes⟩ := h2
      exact ⟨a, List.mem_cons_self _ _, hq, by simpa using ha⟩

theorem cpFree_length (now p : Nat) (es : List CPage) :
    (cpFree now p es).length = es.length := by
  induction es with
  | nil => rfl
  | cons a as ih =>
    rw [cpFree]
    by_cases ha : a.pageId = p
    · rw [if_pos ha]
      simp
    · rw [if_neg ha]
      simpa using ih

theorem cpFree_ids (now p : Nat) (es : List CPage) :
    (cpFree now p es).map (fun e => e.pageId) = es.map (fun e => e.pageId) := by
  induction es with
  | nil => rfl
  | cons a as ih =>
    rw [cpFree]
    by_cases ha : a.pageId = p
    · rw [if_pos ha]
      simp
    · rw [if_neg ha]
      simp only [List.map_cons]
      rw [ih]

theorem cpAcquire_ok {now p : Nat} {s s2 : ClusterPool}
    (h : cpAcquire now s = Except.ok (p, s2)) :
    ∃ ps, cpMark now s.pages = some (p, ps) ∧ s2 = { s with pages := ps } := by
  cases hm : cpMark now s.pages with
  | none =>
    rw [cpAcquire, hm] at h
    exact absurd h (by simp)
  | some pr =>
    obtain ⟨q, bs⟩ := pr
    rw [cpAcquire, hm] at h
    injection h with h2
    rw [Prod.mk.injEq] at h2
    obtain ⟨hq, hs2⟩ := h2
    subst hq
    exact ⟨bs, rfl, hs2.symm⟩

theorem cpReachable_props {m : Nat} {s : ClusterPool} (h : CpReachable m s) :
    s.pages.length = m ∧ (s.pages.map (fun e => e.pageId)).Nodup := by
  induction h with
  | refl =>
    constructor
    · simp [cpInit]
    · simp only [cpInit, List.map_map]
      have : ((fun e => CPage.pageId e) ∘ fun i =>
          ({ pageId := i, inUse := false, lastUsed := 0 } : CPage)) = fun i => i := rfl
      rw [this]
      simpa using List.nodup_range m
  | tail hst hstep ih =>
    obtain ⟨hlen, hnd⟩ := ih
    cases hstep with
    | acquire now p s s2 heq =>
      obtain ⟨ps, hm, hs2⟩ := cpAcquire_ok heq
      rw [hs2]
      constructor
      · simpa [cpMark_length hm] using hlen
      · simpa [cpMark_ids hm] using hnd
    | release now p s =>
      constructor
      · simpa [cpRelease, cpFree_length] using hlen
      · simpa [cpRelease, cpFree_ids] using hnd

theorem wpFree_ids (p : Nat) (es : List PageEntry) :
    (wpFree p es).map (fun e => e.pageId) = es.map (fun e => e.pageId) := by
  induction es with
  | nil => rfl
  | cons a as ih =>
    rw [wpFree]
    by_cases ha : a.pageId = p
    · rw [if_pos ha]
      simp
    · rw [if_neg ha]
      simp only [List.map_cons]
      rw [ih]

theorem cpage_eq_of_id {es : List CPage} (hnd : (es.map (fun e => e.pageId)).Nodup)
    {e1 e2 : CPage} (h1 : e1 ∈ es) (h2 : e2 ∈ es) (hid : e1.pageId = e2.pageId) : e1 = e2 :=
  List.inj_on_of_nodup_map hnd h1 h2 hid

/-! ## Claim theorems -/

/-- C2 (amended): the fingerprint is deterministic in the serialized
request — for every two requests with the same content whose options
objects serialize to the same JSON text (same keys, same order, same
presence of fields), the computed cache keys are equal. -/
theorem c2_fingerprint_determinism (html : String) (o1 o2 : List (String × JVal))
    (h : JSONstringify o1 = JSONstringify o2) :
    fingerprint html o1 = fingerprint html o2 := by
  unfold fingerprint
  rw [h]

theorem c2_fingerprint_determinism_witness :
    JSONstringify [("width", JVal.num 800)] = JSONstringify [("width", JVal.num 800)] ∧
    fingerprint "<p>hi</p>" [("width", JVal.num 800)] =
      fingerprint "<p>hi</p>" [("width", JVal.num 800)] :=
  ⟨rfl, c2_fingerprint_determinism "<p>hi</p>" _ _ rfl⟩

/-- C2 (counterexample): two semantically identical option sets — the
same key/value pairs, merely permuted — produce different fingerprints,
because `JSON.stringify` preserves property order and the hash input is
the raw serialization; likewise supplying a defaulted field explicitly
changes the fingerprint relative to omitting it. -/
theorem c2_key_order_counterexample :
    List.Perm [("width", JVal.num 800), ("height", JVal.num 600)]
      [("height", JVal.num 600), ("width", JVal.num 800)] ∧
    fingerprint "<p>hi</p>" [("width", JVal.num 800), ("height", JVal.num 600)] ≠
      fingerprint "<p>hi</p>" [("height", JVal.num 600), ("width", JVal.num 800)] ∧
    fingerprint "<p>hi</p>" [] ≠ fingerprint "<p>hi</p>" [("width", JVal.num 800)] := by
  refine ⟨List.Perm.swap _ _ _, by decide, by decide⟩

/-- C3 (counterexample): the `src/unnamed/part_000` pool is initialized
with 5 pages, yet six acquires with no intervening release leave six
simultaneously busy pages — `acquire` under saturation lazily creates an
extra busy page instead of failing, so the busy count exceeds the
configured pool size. -/
theorem c3_overflow_counterexample :
    (wpInit 5).pages.length = 5 ∧
    wpBusyCount (wpAcquireN 6 (wpInit 5)) = 6 := by
  exact ⟨by decide, by decide⟩

/-- C3 (amended): in the cluster `PagePool` of `src/index.js` — whose
`acquire` fails with `'No pages available in pool'` under saturation
instead of creating overflow pages — every state reachable by
acquire/release traffic from a freshly initialized pool of `m` pages has
at most `m` busy resources. -/
theorem c3_cluster_busy_bounded (m : Nat) (s : ClusterPool) (h : CpReachable m s) :
    cpBusyCount s ≤ m := by
  have hp := (cpReachable_props h).1
  calc cpBusyCount s ≤ s.pages.length := List.length_filter_le _ _
    _ = m := hp

theorem c3_cluster_busy_bounded_witness : cpBusyCount (cpInit 2) ≤ 2 :=
  c3_cluster_busy_bounded 2 (cpInit 2) Relation.ReflTransGen.refl

/-- C5: in the cluster `generateImage` of `src/index.js`, every
successful pool acquire is matched by exactly one release on every exit
path — cache hit and acquire failure perform no pool traffic at all,
and normal completion, thrown error and timeout alike emit exactly one
acquire followed by exactly one release of the same page. -/
theorem c5_acquire_release_balanced (render : Except String String) (now : Nat)
    (cache : LruCache) (pool : ClusterPool) (html : String)
    (opts : List (String × JVal)) :
    (generateImageC render now cache pool html opts).events = [] ∨
    ∃ p, (generateImageC render now cache pool html opts).events =
      [PoolEvent.acquired p, PoolEvent.released p] := by
  cases hg : lruGet (fingerprint html opts) now cache with
  | mk vo c1 =>
    cases vo with
    | some v =>
      left
      simp only [generateImageC, hg]
    | none =>
      cases ha : cpAcquire now pool with
      | error e =>
        left
        simp only [generateImageC, hg, ha]
      | ok pr =>
        obtain ⟨p, pool1⟩ := pr
        right
        refine ⟨p, ?_⟩
        cases render with
        | ok bytes => simp only [generateImageC, hg, ha]
        | error e => simp only [generateImageC, hg, ha]

/-- C4 (counterexample): in the monolith of `src/index.js`
(`initializePage`, lines 45-63, and `generateImage`, lines 66-108) there
is no pool and no busy flag — after both jobs of an overlapping pair
have entered `generateImage` and neither has finished, both are
mid-render on the very same global page handle. -/
theorem c4_shared_page_counterexample :
    (sRun [true, false] (SJob.start, SJob.start)).1 = SJob.rendering initializePageId ∧
    (sRun [true, false] (SJob.start, SJob.start)).2 = SJob.rendering initializePageId := by
  exact ⟨rfl, rfl⟩

/-- C4 (amended): in the pooled cluster variant of `src/index.js`, the
`inUse` flag set by `acquire` and cleared by `release` is an effective
mutual-exclusion mechanism — in every reachable pool state, while a page
`p` is still held (`inUse = true`), a further successful `acquire`
always hands out a page distinct from `p`. -/
theorem c4_pool_mutual_exclusion (m now p q : Nat) (s s2 : ClusterPool)
    (hreach : CpReachable m s) (hbusy : cpBusy s p)
    (hacq : cpAcquire now s = Except.ok (q, s2)) : q ≠ p := by
  have hnd := (cpReachable_props hreach).2
  obtain ⟨e1, he1, hid1, hu1⟩ := hbusy
  obtain ⟨ps, hm, hs2⟩ := cpAcquire_ok hacq
  obtain ⟨e2, he2, hid2, hu2⟩ := cpMark_some_free hm
  intro hqp
  have hideq : e2.pageId = e1.pageId := by rw [hid2, hid1, hqp]
  have heq := cpage_eq_of_id hnd he2 he1 hideq
  rw [heq, hu1] at hu2
  exact Bool.noConfusion hu2

theorem c4_pool_mutual_exclusion_witness :
    cpBusy cpDemo 0 ∧ (1 : Nat) ≠ 0 :=
  ⟨⟨{ pageId := 0, inUse := true, lastUsed := 0 }, by decide, rfl, rfl⟩,
   c4_pool_mutual_exclusion 2 0 0 1 cpDemo cpDemoAfter
     (Relation.ReflTransGen.tail Relation.ReflTransGen.refl
       (CpStep.acquire 0 0 (cpInit 2) cpDemo (by decide)))
     ⟨{ pageId := 0, inUse := true, lastUsed := 0 }, by decide, rfl, rfl⟩
     (by decide)⟩

/-- C1 (counterexample): scenario A — the request
`{content:"<p>hi</p>", width:800, height:600, format:"jpeg"}` submitted
twice concurrently, the second entering `generateImage` before the first
completes.  Both callers complete, but TWO renders execute, not one:
`generateImage` has no in-flight deduplication, so both probes miss the
cache before either `memoryCache.set` runs. -/
theorem c1_concurrent_dedup_counterexample :
    (scenRun (fun _ _ => "IMG")).renders = 2 ∧
    (scenRun (fun _ _ => "IMG")).renders ≠ 1 ∧
    (scenRun (fun _ _ => "IMG")).jobA = JPc.jobDone (Except.ok "IMG") ∧
    (scenRun (fun _ _ => "IMG")).jobB = JPc.jobDone (Except.ok "IMG") := by
  exact ⟨by decide, by decide, by decide, by decide⟩

/-- C1 (amended): under the fully concurrent schedule of scenario A, two
renders execute (one per caller, each against its own pool page); since
the external engine is a deterministic function of content and options,
both callers still receive identical bytes, and the content cache still
ends with exactly one entry for the request fingerprint (the second
`memoryCache.set` replaces the first). -/
theorem c1_concurrent_duplicate_render
    (render : String → List (String × JVal) → String) :
    (scenRun render).renders = 2 ∧
    (scenRun render).jobA = JPc.jobDone (Except.ok (render scenHtml scenOpts)) ∧
    (scenRun render).jobB = JPc.jobDone (Except.ok (render scenHtml scenOpts)) ∧
    (scenRun render).cache.entries.map (fun e => e.1) = [scenFp] := by
  exact ⟨rfl, rfl, rfl, rfl⟩

/-- C9 (counterexample): a timed-out render in `src/unnamed/part_000`
leaves the pool literally identical to the initial pool — the same page
(id 0) is back, idle, with no teardown/recreation (`nextId` unchanged,
so no new page was ever created).  The job does fail, but the page is
merely released by the `finally` block; the code has no `recycle`
operation and no `generation` counter at all. -/
theorem c9_no_recycle_counterexample :
    generateImageW (Except.error "Timeout") true 0 memCache000 [] (wpInit 1) "<p>hi</p>" []
      = { result := Except.error "Timeout", mem := memCache000, disk := [],
          pool := wpInit 1,
          events := [PoolEvent.acquired 0, PoolEvent.released 0] } := by
  decide

/-- C9 (amended): for every render of `src/unnamed/part_000` that misses
both cache tiers and then fails (timeout or any thrown error), the job
ends failed with that error, the page is merely released — exactly one
release event, the pool keeps exactly the same page identities it had
after the acquire, and no page is created or destroyed. -/
theorem c9_timeout_merely_releases (e : String) (now : Nat) (mem : LruCache)
    (disk : List (String × String)) (pool : WorkerPool) (html : String)
    (opts : List (String × JVal))
    (hmem : (lruGet (fingerprint html opts) now mem).1 = none)
    (hdisk : diskFind (fingerprint html opts) disk = none) :
    (generateImageW (Except.error e) true now mem disk pool html opts).result
        = Except.error e ∧
    (generateImageW (Except.error e) true now mem disk pool html opts).events
        = [PoolEvent.acquired (wpAcquire pool).1, PoolEvent.released (wpAcquire pool).1] ∧
    (generateImageW (Except.error e) true now mem disk pool html opts).pool.pages.map
        (fun pg => pg.pageId)
      = ((wpAcquire pool).2).pages.map (fun pg => pg.pageId) ∧
    (generateImageW (Except.error e) true now mem disk pool html opts).pool.nextId
      = ((wpAcquire pool).2).nextId := by
  rcases hg : lruGet (fingerprint html opts) now mem with ⟨vo, m1⟩
  rw [hg] at hmem
  simp only at hmem
  subst hmem
  rcases hw : wpAcquire pool with ⟨p, pool1⟩
  simp [generateImageW, hg, hdisk, hw, wpRelease, wpFree_ids]

theorem c9_timeout_merely_releases_witness :
    (lruGet (fingerprint "<p>hi</p>" []) 0 memCache000).1 = none ∧
    diskFind (fingerprint "<p>hi</p>" []) [] = none ∧
    ((generateImageW (Except.error "Timeout") true 0 memCache000 [] (wpInit 5)
        "<p>hi</p>" []).result = Except.error "Timeout" ∧
     (generateImageW (Except.error "Timeout") true 0 memCache000 [] (wpInit 5)
        "<p>hi</p>" []).events
       = [PoolEvent.acquired (wpAcquire (wpInit 5)).1,
          PoolEvent.released (wpAcquire (wpInit 5)).1] ∧
     (generateImageW (Except.error "Timeout") true 0 memCache000 [] (wpInit 5)
        "<p>hi</p>" []).pool.pages.map (fun pg => pg.pageId)
       = ((wpAcquire (wpInit 5)).2).pages.map (fun pg => pg.pageId) ∧
     (generateImageW (Except.error "Timeout") true 0 memCache000 [] (wpInit 5)
        "<p>hi</p>" []).pool.nextId = ((wpAcquire (wpInit 5)).2).nextId) :=
  ⟨by decide, by decide,
   c9_timeout_merely_releases "Timeout" 0 memCache000 [] (wpInit 5) "<p>hi</p>" []
     (by decide) (by decide)⟩

/-- C7 (counterexample): in `src/unnamed/part_000`, a render that
succeeds but whose Tier-2 `fs.writeFileSync` fails makes the whole
request fail: the caller receives the thrown error, not the rendered
bytes, and Tier-1 does NOT hold the result (the `memoryCache.set`
follows the failed write and never runs). -/
theorem c7_tier2_write_counterexample :
    generateImageW (Except.ok "IMG") false 0 memCache000 [] (wpInit 5) "<p>hi</p>" []
      = { result := Except.error "cache write failed", mem := memCache000,
          disk := [], pool := wpInit 5,
          events := [PoolEvent.acquired 0, PoolEvent.released 0] } := by
  decide

/-- C7 (amended): for every render of `src/unnamed/part_000` that
misses both cache tiers, renders successfully, and then fails the
Tier-2 (file cache) write, the request itself fails — the caller gets
the error, Tier-1 ends without an entry for the fingerprint, Tier-2 is
unchanged — and the pool page is still acquired and released exactly
once. -/
theorem c7_tier2_failure_fails_request (bytes : String) (now : Nat) (mem : LruCache)
    (disk : List (String × String)) (pool : WorkerPool) (html : String)
    (opts : List (String × JVal))
    (hmem : (lruGet (fingerprint html opts) now mem).1 = none)
    (hdisk : diskFind (fingerprint html opts) disk = none) :
    (generateImageW (Except.ok bytes) false now mem disk pool html opts).result
        = Except.error "cache write failed" ∧
    lruFind (fingerprint html opts)
        (generateImageW (Except.ok bytes) false now mem disk pool html opts).mem.entries
      = none ∧
    (generateImageW (Except.ok bytes) false now mem disk pool html opts).disk = disk ∧
    (generateImageW (Except.ok bytes) false now mem disk pool html opts).events
      = [PoolEvent.acquired (wpAcquire pool).1, PoolEvent.released (wpAcquire pool).1] := by
  have hfind := lruGet_none_find_none hmem
  rcases hg : lruGet (fingerprint html opts) now mem with ⟨vo, m1⟩
  rw [hg] at hmem hfind
  simp only at hmem hfind
  subst hmem
  rcases hw : wpAcquire pool with ⟨p, pool1⟩
  simp [generateImageW, hg, hdisk, hw, hfind]

theorem c7_tier2_failure_fails_request_witness :
    (lruGet (fingerprint "<p>hi</p>" []) 0 memCache000).1 = none ∧
    diskFind (fingerprint "<p>hi</p>" []) [] = none ∧
    ((generateImageW (Except.ok "IMG") false 0 memCache000 [] (wpInit 5)
        "<p>hi</p>" []).result = Except.error "cache write failed" ∧
     lruFind (fingerprint "<p>hi</p>" [])
        (generateImageW (Except.ok "IMG") false 0 memCache000 [] (wpInit 5)
          "<p>hi</p>" []).mem.entries = none ∧
     (generateImageW (Except.ok "IMG") false 0 memCache000 [] (wpInit 5)
        "<p>hi</p>" []).disk = [] ∧
     (generateImageW (Except.ok "IMG") false 0 memCache000 [] (wpInit 5)
        "<p>hi</p>" []).events
       = [PoolEvent.acquired (wpAcquire (wpInit 5)).1,
          PoolEvent.released (wpAcquire (wpInit 5)).1]) :=
  ⟨by decide, by decide,
   c7_tier2_failure_fails_request "IMG" 0 memCache000 [] (wpInit 5) "<p>hi</p>" []
     (by decide) (by decide)⟩

/-- C8 (counterexample): a `POST /image` body with `width: 0` — a value
outside `[1, 4000]` — is NOT rejected: `parseInt(req.body.width) || 800`
treats the falsy `0` as absent and silently substitutes the default
`800`, so the request passes validation, a render executes, and a 200
image response is produced. -/
theorem c8_zero_width_counterexample :
    ((0 : Int) < 1 ∨ 4000 < (0 : Int)) ∧
    postImage (Except.ok "IMG") 0 cacheMono
        { html := some "<p>hi</p>", width := some 0, height := none,
          quality := none, format := none }
      = (HttpResp.okImage "image/jpeg" "IMG",
         lruPut (fingerprint "<p>hi</p>"
             [("width", JVal.num 800), ("height", JVal.num 600),
              ("quality", JVal.num 80), ("format", JVal.str "jpeg")])
           "IMG" 0 cacheMono,
         1) := by
  exact ⟨by decide, by decide⟩

/-- C8 (amended): the monolith `POST /image` handler rejects with 400
and an `{error}` body — touching neither the cache nor the page (no
render executes) — every request whose width or height parses to a
NONZERO value outside `[1, 4000]`, whose quality parses to a nonzero
value outside `[1, 100]`, or whose format is (case-insensitively) not
one of `jpeg`, `png`, `pdf`; a numeric field that is absent,
unparsable, or the falsy `0` is silently replaced by its default
(800/600/80) before validation, and an absent or empty format becomes
`jpeg`. -/
theorem c8_validation_rejects_before_render (render : Except String String) (now : Nat)
    (cache : LruCache) (body : PostBody) (html : String)
    (hh : body.html = some html)
    (hbad : jsIntOr 800 body.width < 1 ∨ 4000 < jsIntOr 800 body.width ∨
            jsIntOr 600 body.height < 1 ∨ 4000 < jsIntOr 600 body.height ∨
            jsIntOr 80 body.quality < 1 ∨ 100 < jsIntOr 80 body.quality ∨
            ¬ (jsToLowerCase (jsStrOr "jpeg" body.format) = "jpeg" ∨
               jsToLowerCase (jsStrOr "jpeg" body.format) = "png" ∨
               jsToLowerCase (jsStrOr "jpeg" body.format) = "pdf")) :
    ∃ msg, postImage render now cache body = (HttpResp.badRequest msg, cache, 0) := by
  simp only [postImage, hh]
  by_cases h1 : jsIntOr 800 body.width < 1 ∨ 4000 < jsIntOr 800 body.width ∨
      jsIntOr 600 body.height < 1 ∨ 4000 < jsIntOr 600 body.height
  · rw [if_pos h1]
    exact ⟨_, rfl⟩
  · rw [if_neg h1]
    by_cases h2 : jsIntOr 80 body.quality < 1 ∨ 100 < jsIntOr 80 body.quality
    · rw [if_pos h2]
      exact ⟨_, rfl⟩
    · rw [if_neg h2]
      by_cases h3 : jsToLowerCase (jsStrOr "jpeg" body.format) = "jpeg" ∨
          jsToLowerCase (jsStrOr "jpeg" body.format) = "png" ∨
          jsToLowerCase (jsStrOr "jpeg" body.format) = "pdf"
      · exfalso
        rcases hbad with h | h | h | h | h | h | h
        · exact h1 (Or.inl h)
        · exact h1 (Or.inr (Or.inl h))
        · exact h1 (Or.inr (Or.inr (Or.inl h)))
        · exact h1 (Or.inr (Or.inr (Or.inr h)))
        · exact h2 (Or.inl h)
        · exact h2 (Or.inr h)
        · exact h h3
      · rw [if_pos h3]
        exact ⟨_, rfl⟩

theorem c8_validation_rejects_before_render_witness :
    (jsIntOr 800 (some 5000) < 1 ∨ 4000 < jsIntOr 800 (some 5000) ∨
     jsIntOr 600 (none : Option Int) < 1 ∨ 4000 < jsIntOr 600 (none : Option Int) ∨
     jsIntOr 80 (none : Option Int) < 1 ∨ 100 < jsIntOr 80 (none : Option Int) ∨
     ¬ (jsToLowerCase (jsStrOr "jpeg" (none : Option String)) = "jpeg" ∨
        jsToLowerCase (jsStrOr "jpeg" (none : Option String)) = "png" ∨
        jsToLowerCase (jsStrOr "jpeg" (none : Option String)) = "pdf")) ∧
    ∃ msg, postImage (Except.ok "IMG") 0 cacheMono
        { html := some "<p>hi</p>", width := some 5000, height := none,
          quality := none, format := none }
      = (HttpResp.badRequest msg, cacheMono, 0) :=
  ⟨by decide,
   c8_validation_rejects_before_render (Except.ok "IMG") 0 cacheMono
     { html := some "<p>hi</p>", width := some 5000, height := none,
       quality := none, format := none } "<p>hi</p>" rfl (by decide)⟩

/-- C10: in the cluster variant `src/unnamed/part_000`, a `GET /image`
request with no `html` query parameter is not rejected:
`decodeURIComponent(undefined)` yields the non-empty string
`"undefined"`, which passes the `if (!html)` presence check, so the
literal text `undefined` is submitted for rendering and (when the
render succeeds on a double-miss of the caches) a 200 `image/png`
response is produced; the 400 "HTML content is required" branch is
unreachable for this request. -/
theorem c10_missing_html_not_rejected (bytes : String) (writeOk : Bool) (now : Nat)
    (mem : LruCache) (disk : List (String × String)) (pool : WorkerPool)
    (hmem : (lruGet (fingerprint "undefined" []) now mem).1 = none)
    (hdisk : diskFind (fingerprint "undefined" []) disk = none)
    (hwrite : writeOk = true) :
    (getImage (Except.ok bytes) writeOk now mem disk pool none).submitted
        = some "undefined" ∧
    (getImage (Except.ok bytes) writeOk now mem disk pool none).resp
        = HttpResp.okImage "image/png" bytes ∧
    ∀ e, (getImage (Except.ok bytes) writeOk now mem disk pool none).resp
        ≠ HttpResp.badRequest e := by
  subst hwrite
  rcases hg : lruGet (fingerprint "undefined" []) now mem with ⟨vo, m1⟩
  rw [hg] at hmem
  simp only at hmem
  subst hmem
  rcases hw : wpAcquire pool with ⟨p, pool1⟩
  refine ⟨?_, ?_, ?_⟩
  · simp [getImage, decodeURIComponentJs, generateImageW, hg, hdisk, hw]
  · simp [getImage, decodeURIComponentJs, generateImageW, hg, hdisk, hw]
  · intro e
    simp [getImage, decodeURIComponentJs, generateImageW, hg, hdisk, hw]

theorem c10_missing_html_not_rejected_witness :
    (lruGet (fingerprint "undefined" []) 0 memCache000).1 = none ∧
    diskFind (fingerprint "undefined" []) [] = none ∧
    ((getImage (Except.ok "IMG") true 0 memCache000 [] (wpInit 5) none).submitted
        = some "undefined" ∧
     (getImage (Except.ok "IMG") true 0 memCache000 [] (wpInit 5) none).resp
        = HttpResp.okImage "image/png" "IMG" ∧
     ∀ e, (getImage (Except.ok "IMG") true 0 memCache000 [] (wpInit 5) none).resp
        ≠ HttpResp.badRequest e) :=
  ⟨by decide, by decide,
   c10_missing_html_not_rejected "IMG" true 0 memCache000 [] (wpInit 5)
     (by decide) (by decide) rfl⟩

/-- C6 (spec-modelled, since the `lru-cache` implementation is an
external dependency): after `put(k, v)` at time `t`, the key is
immediately retrievable; across any subsequent cache traffic that does
not overwrite `k`, the entry for `k` — while it survives — still holds
exactly `v`, and a `get(k)` returns `v` while the TTL has not expired
and a miss once it has; once the entry has been evicted (LRU pressure
being the only way it disappears), `get(k)` returns a miss; and the
entry count never exceeds the configured maximum. -/
theorem c6_cache_get_after_put (c : LruCache) (k v : String) (t : Nat)
    (ops : List CacheOp) (t2 : Nat)
    (hmax : 1 ≤ c.maxItems)
    (hops : ∀ op ∈ ops, ∀ v2 t3, op ≠ CacheOp.put k v2 t3) :
    lruFind k (lruPut k v t c).entries = some (k, v, t) ∧
    (lruFind k (applyOps (lruPut k v t c) ops).entries = none →
       (lruGet k t2 (applyOps (lruPut k v t c) ops)).1 = none) ∧
    (∀ e, lruFind k (applyOps (lruPut k v t c) ops).entries = some e →
       e = (k, v, t) ∧
       (t2 < t + c.ttl → (lruGet k t2 (applyOps (lruPut k v t c) ops)).1 = some v) ∧
       (t + c.ttl ≤ t2 → (lruGet k t2 (applyOps (lruPut k v t c) ops)).1 = none)) ∧
    (applyOps (lruPut k v t c) ops).entries.length ≤ c.maxItems := by
  have hpin : KPinned k v t (applyOps (lruPut k v t c) ops).entries :=
    applyOps_pinned hops (kPinned_lruPut_self k v t c)
  have httl : (applyOps (lruPut k v t c) ops).ttl = c.ttl :=
    (applyOps_ttl (lruPut k v t c) ops).trans rfl
  refine ⟨?_, ?_, ?_, ?_⟩
  · obtain ⟨m2, hm2⟩ : ∃ m2, c.maxItems = m2 + 1 := ⟨c.maxItems - 1, by omega⟩
    simp [lruPut, hm2, List.take_succ_cons, lruFind]
  · intro hn
    simp only [lruGet, hn]
  · intro e he
    have hev : e = (k, v, t) := hpin e (lruFind_some he).1 (lruFind_some he).2
    subst hev
    refine ⟨rfl, ?_, ?_⟩
    · intro hlt
      simp only [lruGet, he]
      rw [if_pos]
      rw [httl]
      exact hlt
    · intro hge
      simp only [lruGet, he]
      rw [if_neg]
      rw [httl]
      omega
  · exact applyOps_length_le (lruPut_length_le k v t c)

theorem c6_cache_get_after_put_witness :
    1 ≤ cacheMono.maxItems ∧
    lruFind "k" (applyOps (lruPut "k" "v" 0 cacheMono)
        [CacheOp.put "a" "x" 1, CacheOp.get "k" 2]).entries = some ("k", "v", 0) ∧
    (lruGet "k" 3 (applyOps (lruPut "k" "v" 0 cacheMono)
        [CacheOp.put "a" "x" 1, CacheOp.get "k" 2])).1 = some "v" :=
  ⟨by decide, by decide,
   ((c6_cache_get_after_put cacheMono "k" "v" 0
        [CacheOp.put "a" "x" 1, CacheOp.get "k" 2] 3 (by decide)
        (by
          intro op hm v2 t3
          simp only [List.mem_cons, List.not_mem_nil, or_false] at hm
          rcases hm with rfl | rfl
          · simp
          · simp)).2.2.1 ("k", "v", 0) (by decide)).2.1 (by decide)⟩
